import Mathlib

/-
Shallow embedding of the sqlalchemy_auth access-control layer
(source files: src/__init__.py and src/block_base.py).

The embedding models, faithfully to the Python source:
  * the tri-state effective user (ALLOW / DENY / concrete identity),
  * AuthException versus plain internal exceptions,
  * AuthQuery: _add_auth_filters, _lookup_entities, _compile_context /
    execute, update, delete, and result stamping in _execute_and_instances,
  * _AuthBase: __getattribute__ and __setattr__ with the per-object
    _checking_authorization re-entrancy flag, and the
    get_blocked_read_attributes / get_blocked_write_attributes helpers.

Python mutation is made explicit: operations on objects return the
resulting object state next to the Except result.  Engine behavior
(SQL generation and execution) and each entity type implementation
(add_auth_filters, _blocked_read_attributes, _blocked_write_attributes)
are opaque parameters, matching their out-of-scope status.
-/

namespace SqlAuth

instance {ε α : Type} [DecidableEq ε] [DecidableEq α] : DecidableEq (Except ε α) := fun x y =>
  match x, y with
  | .ok a, .ok b =>
    if h : a = b then isTrue (by rw [h]) else isFalse (by simp [h])
  | .error a, .error b =>
    if h : a = b then isTrue (by rw [h]) else isFalse (by simp [h])
  | .ok _, .error _ => isFalse (by simp)
  | .error _, .ok _ => isFalse (by simp)

/-- The effective user carried by sessions, queries and objects:
the _Access enum sentinels ALLOW and DENY, or an opaque identity value
(identities are modelled as naturals). -/
inductive EffUser where
  | allow
  | deny
  | identity (u : Nat)
deriving DecidableEq

/-- Errors. `accessDenied` and `denied` are AuthException values
(`denied` is the AuthException("Access is denied") raised by
_add_auth_filters; `accessDenied` is the formatted
"user may not access field on class" AuthException raised by the
attribute guard, carrying the three named pieces).  `internal` is a
plain Exception (for example "mismatched dict lengths; investigate"
in _lookup_entities), which is not an AuthException. -/
inductive AuthErr where
  | accessDenied (user : EffUser) (field : String) (entity : String)
  | denied
  | internal (msg : String)
deriving DecidableEq

/-- Whether an error is an AuthException (as opposed to a plain Exception). -/
def AuthErr.isAuthException : AuthErr → Bool
  | .accessDenied _ _ _ => true
  | .denied => true
  | .internal _ => false

/-- Python attribute values, as far as the claims need them. -/
inductive Value where
  | vUser (u : EffUser)
  | vNat (n : Nat)
  | vStr (s : String)
  | vNone
deriving DecidableEq

/-- A policy-aware object (an _AuthBase instance).  `effective_user` is the
_effective_user slot (class default ALLOW), `checking_authorization` is the
per-object re-entrancy flag (class default False), `attrs` are the ordinary
instance attributes. -/
structure AuthObj where
  className : String
  effective_user : EffUser := .allow
  checking_authorization : Bool := false
  attrs : List (String × Value) := []
deriving DecidableEq

def lookupAttr : List (String × Value) → String → Value
  | [], _ => .vNone
  | (k, v) :: rest, name => if k = name then v else lookupAttr rest name

def setAttrList : List (String × Value) → String → Value → List (String × Value)
  | [], name, v => [(name, v)]
  | (k, w) :: rest, name, v =>
    if k = name then (name, v) :: rest else (k, w) :: setAttrList rest name v

/-- Raw attribute read: object.__getattribute__ of the base class,
bypassing the auth guard.  The _effective_user slot is part of the
object state; other names read the instance attributes. -/
def rawGet (o : AuthObj) (name : String) : Value :=
  if name = "_effective_user" then .vUser o.effective_user
  else lookupAttr o.attrs name

/-- Raw attribute write: object.__setattr__ of the base class,
bypassing the auth guard. -/
def rawSet (o : AuthObj) (name : String) (v : Value) : AuthObj :=
  if name = "_effective_user" then
    match v with
    | .vUser u => { o with effective_user := u }
    | _ => o
  else { o with attrs := setAttrList o.attrs name v }

/-- An entity type implementation of the attribute-side Policy Provider
hooks _blocked_read_attributes / _blocked_write_attributes.  The hook may
read fields of the protected object itself (`readsR` / `readsW`, performed
through the attribute guard, exactly as self.field does in Python), and
then computes the blocked name list from the user and the values read; the
computation may itself raise.  The default matches AuthBase: block nothing,
read nothing. -/
structure Provider where
  readsR : List String := []
  blockedR : EffUser → List Value → Except AuthErr (List String) := fun _ _ => Except.ok []
  readsW : List String := []
  blockedW : EffUser → List Value → Except AuthErr (List String) := fun _ _ => Except.ok []

/-- _AuthBase.get_blocked_read_attributes, as evaluated from inside
__getattribute__: at that point the re-entrancy flag on `o` is set, so
every self.field read performed by _blocked_read_attributes hits the
bypass branch of __getattribute__ and is a raw read (the theorem
getattribute_bypass below establishes that the bypass branch is exactly
a raw read).  Returns [] without invoking the provider when the user is
ALLOW. -/
def get_blocked_read_attributes (P : Provider) (o : AuthObj) : Except AuthErr (List String) :=
  if o.effective_user = .allow then .ok []
  else P.blockedR o.effective_user (P.readsR.map (rawGet o))

/-- _AuthBase.__getattribute__.  Returns the read result together with the
resulting object state (the flag mutations are real mutations in Python).
Note the source has no try/finally: if the blocked-set computation raises,
the flag is left set. -/
def getattribute (P : Provider) (o : AuthObj) (name : String) :
    Except AuthErr Value × AuthObj :=
  if o.checking_authorization then (.ok (rawGet o name), o)
  else
    let o1 := { o with checking_authorization := true }
    match get_blocked_read_attributes P o1 with
    | .error e => (.error e, o1)
    | .ok blocked =>
      let o2 := { o1 with checking_authorization := false }
      if name ∈ blocked then
        (.error (.accessDenied o2.effective_user name o2.className), o2)
      else (.ok (rawGet o2 name), o2)

/-- The self.field reads performed by _blocked_write_attributes.  These run
from __setattr__, which does not touch the re-entrancy flag, so each read
goes through the full __getattribute__ with whatever flag state the object
currently has.  State is threaded; a failing read propagates. -/
def readSelfFields (P : Provider) (o : AuthObj) :
    List String → Except AuthErr (List Value) × AuthObj
  | [] => (.ok [], o)
  | f :: rest =>
    match getattribute P o f with
    | (.error e, o1) => (.error e, o1)
    | (.ok v, o1) =>
      match readSelfFields P o1 rest with
      | (.error e, o2) => (.error e, o2)
      | (.ok vs, o2) => (.ok (v :: vs), o2)

/-- _AuthBase.get_blocked_write_attributes, as evaluated from __setattr__.
Returns [] without invoking the provider when the user is ALLOW. -/
def get_blocked_write_attributes (P : Provider) (o : AuthObj) :
    Except AuthErr (List String) × AuthObj :=
  if o.effective_user = .allow then (.ok [], o)
  else
    match readSelfFields P o P.readsW with
    | (.error e, o1) => (.error e, o1)
    | (.ok vs, o1) => (P.blockedW o1.effective_user vs, o1)

/-- _AuthBase.__setattr__.  Unlike __getattribute__, it contains no
re-entrancy flag check: the blocked-write lookup runs on every write. -/
def setattr_ (P : Provider) (o : AuthObj) (name : String) (v : Value) :
    Except AuthErr Unit × AuthObj :=
  match get_blocked_write_attributes P o with
  | (.error e, o1) => (.error e, o1)
  | (.ok blocked, o1) =>
    if name ∈ blocked then
      (.error (.accessDenied o1.effective_user name o1.className), o1)
    else (.ok (), rawSet o1 name v)

/-- A row produced by query execution: either a policy-aware model
instance, or a bare value with no attribute slots (count results, raw
scalars), on which attribute assignment raises AttributeError. -/
inductive Row where
  | obj (o : AuthObj)
  | scalar (n : Int)
deriving DecidableEq

/-- AuthQuery._execute_and_instances, restricted to its own contribution:
for every row coming back from the engine, try row._effective_user = user;
AttributeError (bare values) is caught and ignored, while an AuthException
raised by the attribute guard propagates.  `provOf` resolves the Policy
Provider from the class of an object. -/
def execute_and_instances (provOf : String → Provider) (u : EffUser) :
    List Row → Except AuthErr (List Row)
  | [] => .ok []
  | .scalar n :: rest =>
    match execute_and_instances provOf u rest with
    | .error e => .error e
    | .ok rs => .ok (.scalar n :: rs)
  | .obj o :: rest =>
    match setattr_ (provOf o.className) o "_effective_user" (.vUser u) with
    | (.error e, _) => .error e
    | (.ok _, o1) =>
      match execute_and_instances provOf u rest with
      | .error e => .error e
      | .ok rs => .ok (.obj o1 :: rs)

/-- One element of AuthQuery._entities (a sqlalchemy query-entity object).
`oid` models Python object identity: the dict used for deduplication in
_lookup_entities keys on the entity object itself, so two query entities
are the same key only if they are the same object. -/
structure QEntity where
  oid : Nat
  expr : Nat
  mapper : Nat
deriving DecidableEq

/-- The value under the entity key of one column_descriptions entry:
either a declarative model class (isinstance(class_, DeclarativeMeta))
or something else (count and other raw expressions). -/
inductive ColEntity where
  | modelClass (cls : Nat)
  | nonModel
deriving DecidableEq

/-- One entry of AuthQuery.column_descriptions. -/
structure ColDesc where
  expr : Nat
  entity : ColEntity
deriving DecidableEq

/-- The AuthQuery state the auth layer inspects and edits: the attached
effective user, the selected entities, the column descriptions, the
accumulated filter criterion (predicates are opaque, modelled as naturals)
and the _select_from_entity slot. -/
structure Query where
  effective_user : EffUser
  entities : List QEntity
  column_descriptions : List ColDesc
  criterion : List Nat := []
  select_from_entity : Option Nat := none
deriving DecidableEq

/-- The per-class add_auth_filters hooks, as one table from class to hook.
The default implementation in AuthBase returns the query unchanged. -/
def AddFilters : Type := Nat → Query → EffUser → Query

/-- The loop body of AuthQuery._lookup_entities: walk _entities, skip an
entity already seen (keyed by the entity object), resolve its class from
the column_descriptions entry with the same expr (the [0] indexing raises
IndexError when nothing matches), keep declarative classes, silently skip
non-model entries (continue, which also skips the found_entities update). -/
def lookup_loop (cols : List ColDesc) :
    List QEntity → List QEntity → Except AuthErr (List (Nat × Nat))
  | [], _ => .ok []
  | e :: rest, found =>
    if e ∈ found then lookup_loop cols rest found
    else
      match (cols.filter (fun c => c.expr == e.expr)).map ColDesc.entity with
      | [] => .error (.internal "list index out of range")
      | .nonModel :: _ => lookup_loop cols rest found
      | .modelClass cls :: _ =>
        match lookup_loop cols rest (e :: found) with
        | .error er => .error er
        | .ok l => .ok ((cls, e.mapper) :: l)

/-- AuthQuery._lookup_entities: the mismatched-lengths guard raises a plain
Exception, then the deduplicating resolution loop runs.  Returns the
(class, mapper) pairs in discovery order. -/
def lookup_entities (q : Query) : Except AuthErr (List (Nat × Nat)) :=
  if q.column_descriptions.length ≠ q.entities.length then
    .error (.internal "mismatched dict lengths; investigate")
  else lookup_loop q.column_descriptions q.entities []

/-- Observable events of one query cycle: an add_auth_filters invocation
for a class (filter injection), or the hand-off to the persistence engine. -/
inductive Event where
  | filterCall (cls : Nat)
  | engineCall
deriving DecidableEq

/-- The filter-application loop of _add_auth_filters: for each looked-up
entity, set _select_from_entity to its mapper and invoke the class hook
with the current query and its effective user.  Also records one
filterCall event per invocation. -/
def run_filters (tbl : AddFilters) (q : Query) :
    List (Nat × Nat) → Query × List Event
  | [] => (q, [])
  | (cls, m) :: rest =>
    let fq := tbl cls { q with select_from_entity := some m } q.effective_user
    let (q1, tr) := run_filters tbl fq rest
    (q1, .filterCall cls :: tr)

/-- AuthQuery._add_auth_filters: DENY raises AuthException("Access is
denied") before anything else; ALLOW skips entity lookup and filter
invocation entirely; otherwise the entities are looked up and each
contributes one hook invocation, after which _select_from_entity is
restored.  Returns the event list next to the result. -/
def add_auth_filters (tbl : AddFilters) (q : Query) :
    Except AuthErr Query × List Event :=
  if q.effective_user = .deny then (.error .denied, [])
  else
    let original := q.select_from_entity
    if q.effective_user = .allow then
      (.ok { q with select_from_entity := original }, [])
    else
      match lookup_entities q with
      | .error e => (.error e, [])
      | .ok ents =>
        let (fq, tr) := run_filters tbl q ents
        (.ok { fq with select_from_entity := original }, tr)

/-- Query execution (the _compile_context override followed by
_execute_and_instances): filters are injected first, then the engine runs
on the filtered query, then every produced row is stamped with the
effective user of the query.  `engine` abstracts compilation plus row
production by the persistence engine. -/
def executeQ (tbl : AddFilters) (provOf : String → Provider)
    (engine : Query → List Row) (q : Query) :
    Except AuthErr (List Row) × List Event :=
  match add_auth_filters tbl q with
  | (.error e, tr) => (.error e, tr)
  | (.ok fq, tr) =>
    (execute_and_instances provOf q.effective_user (engine fq), tr ++ [.engineCall])

/-- AuthQuery.update: inject the auth filters, then hand the filtered query
and the caller values to the engine.  No attribute-level check is made on
the values (the source marks this with a TODO). -/
def updateQ (tbl : AddFilters) (q : Query) (values : List (String × Value)) :
    Except AuthErr (Query × List (String × Value)) × List Event :=
  match add_auth_filters tbl q with
  | (.error e, tr) => (.error e, tr)
  | (.ok fq, tr) => (.ok (fq, values), tr ++ [.engineCall])

/-- AuthQuery.delete: inject the auth filters, then hand the filtered query
to the engine. -/
def deleteQ (tbl : AddFilters) (q : Query) : Except AuthErr Query × List Event :=
  match add_auth_filters tbl q with
  | (.error e, tr) => (.error e, tr)
  | (.ok fq, tr) => (.ok fq, tr ++ [.engineCall])

/-! Helper lemmas -/

theorem getattribute_bypass (P : Provider) (o : AuthObj) (name : String)
    (h : o.checking_authorization = true) :
    getattribute P o name = (.ok (rawGet o name), o) := by
  simp [getattribute, h]

theorem getattribute_ok_state (P : Provider) (o : AuthObj) (name : String)
    (v : Value) (o1 : AuthObj) (h : getattribute P o name = (.ok v, o1)) :
    o1 = o := by
  simp only [getattribute] at h
  split at h
  · injection h with h1 h2
    exact h2.symm
  · rename_i hf
    split at h
    · injection h with h1 h2; cases h1
    · rename_i blocked hb
      split at h
      · injection h with h1 h2; cases h1
      · injection h with h1 h2
        rw [← h2]
        have hf' : o.checking_authorization = false := by simpa using hf
        cases o
        simp_all

theorem readSelfFields_ok_state (P : Provider) (o : AuthObj) (fs : List String)
    (vs : List Value) (o1 : AuthObj) (h : readSelfFields P o fs = (.ok vs, o1)) :
    o1 = o := by
  induction fs generalizing o vs o1 with
  | nil =>
    simp only [readSelfFields] at h
    injection h with h1 h2
    exact h2.symm
  | cons f rest ih =>
    simp only [readSelfFields] at h
    split at h
    · injection h with h1 h2; cases h1
    · rename_i v2 o2 hg
      split at h
      · injection h with h1 h2; cases h1
      · rename_i vs2 o3 hr
        injection h with h1 h2
        rw [← h2]
        rw [ih o2 vs2 o3 hr]
        exact getattribute_ok_state P o f v2 o2 hg

theorem get_blocked_write_ok_state (P : Provider) (o : AuthObj)
    (bs : List String) (o1 : AuthObj)
    (h : get_blocked_write_attributes P o = (.ok bs, o1)) :
    o1 = o := by
  simp only [get_blocked_write_attributes] at h
  split at h
  · injection h with h1 h2
    exact h2.symm
  · split at h
    · injection h with h1 h2; cases h1
    · rename_i vs o2 hr
      have h2 : o1 = o2 := by
        rcases hb : P.blockedW o2.effective_user vs with e | bs2 <;> rw [hb] at h
        · injection h with h1 h2; cases h1
        · injection h with h1 h2; exact h2.symm
      rw [h2]
      exact readSelfFields_ok_state P o P.readsW vs o2 hr

theorem run_filters_trace (tbl : AddFilters) (q : Query) (ents : List (Nat × Nat)) :
    (run_filters tbl q ents).2 = ents.map (fun cm => Event.filterCall cm.1) := by
  induction ents generalizing q with
  | nil => rfl
  | cons cm rest ih =>
    rcases cm with ⟨cls, m⟩
    simp only [run_filters, List.map]
    rw [← ih (tbl cls { q with select_from_entity := some m } q.effective_user)]

/-! Claim theorems -/

/-- Claim C1: for every query whose principal is Deny, each of execute,
update and delete fails with the AccessDenied AuthException, and the
failure occurs before any filter injection and before any call into the
persistence engine (the event trace is empty). -/
theorem C1_deny_fails_before_any_work (tbl : AddFilters) (provOf : String → Provider)
    (engine : Query → List Row) (q : Query) (values : List (String × Value))
    (hd : q.effective_user = .deny) :
    executeQ tbl provOf engine q = (.error .denied, []) ∧
    updateQ tbl q values = (.error .denied, []) ∧
    deleteQ tbl q = (.error .denied, []) ∧
    AuthErr.denied.isAuthException = true := by
  refine ⟨?_, ?_, ?_, rfl⟩ <;>
    simp [executeQ, updateQ, deleteQ, add_auth_filters, hd]

theorem C1_witness :
    (Query.mk .deny [] [] [] none).effective_user = .deny ∧
    executeQ (fun _ q _ => q) (fun _ => {}) (fun _ => [])
      (Query.mk .deny [] [] [] none) = (.error .denied, []) ∧
    updateQ (fun _ q _ => q) (Query.mk .deny [] [] [] none) [] = (.error .denied, []) ∧
    deleteQ (fun _ q _ => q) (Query.mk .deny [] [] [] none) = (.error .denied, []) ∧
    AuthErr.denied.isAuthException = true := by
  refine ⟨rfl, ?_⟩
  exact C1_deny_fails_before_any_work (fun _ q _ => q) (fun _ => {}) (fun _ => [])
    (Query.mk .deny [] [] [] none) [] rfl

/-- Claim C9: an entity-discovery mismatch (differing lengths of
column_descriptions and _entities) raises the plain internal Exception
"mismatched dict lengths; investigate", which is not an AuthException,
and that is the error each of execute, update and delete surfaces for a
concrete-identity principal (the only principal for which discovery runs). -/
theorem C9_mismatch_is_internal_error (tbl : AddFilters) (provOf : String → Provider)
    (engine : Query → List Row) (q : Query) (values : List (String × Value)) (u : Nat)
    (hm : q.column_descriptions.length ≠ q.entities.length)
    (hu : q.effective_user = .identity u) :
    lookup_entities q = .error (.internal "mismatched dict lengths; investigate") ∧
    (AuthErr.internal "mismatched dict lengths; investigate").isAuthException = false ∧
    executeQ tbl provOf engine q
      = (.error (.internal "mismatched dict lengths; investigate"), []) ∧
    updateQ tbl q values
      = (.error (.internal "mismatched dict lengths; investigate"), []) ∧
    deleteQ tbl q
      = (.error (.internal "mismatched dict lengths; investigate"), []) := by
  have hl : lookup_entities q = .error (.internal "mismatched dict lengths; investigate") := by
    simp [lookup_entities, hm]
  refine ⟨hl, rfl, ?_, ?_, ?_⟩ <;>
    simp [executeQ, updateQ, deleteQ, add_auth_filters, hu, hl]

theorem C9_witness :
    (Query.mk (.identity 4) [QEntity.mk 0 0 0] [] [] none).column_descriptions.length ≠
      (Query.mk (.identity 4) [QEntity.mk 0 0 0] [] [] none).entities.length ∧
    lookup_entities (Query.mk (.identity 4) [QEntity.mk 0 0 0] [] [] none)
      = .error (.internal "mismatched dict lengths; investigate") ∧
    executeQ (fun _ q _ => q) (fun _ => {}) (fun _ => [])
      (Query.mk (.identity 4) [QEntity.mk 0 0 0] [] [] none)
      = (.error (.internal "mismatched dict lengths; investigate"), []) := by
  refine ⟨by decide, ?_, ?_⟩
  · exact (C9_mismatch_is_internal_error (fun _ q _ => q) (fun _ => {}) (fun _ => [])
      (Query.mk (.identity 4) [QEntity.mk 0 0 0] [] [] none) [] 4 (by decide) rfl).1
  · exact (C9_mismatch_is_internal_error (fun _ q _ => q) (fun _ => {}) (fun _ => [])
      (Query.mk (.identity 4) [QEntity.mk 0 0 0] [] [] none) [] 4 (by decide) rfl).2.2.1

/-- Claim C8: with principal ALLOW, filter injection invokes no
add_auth_filters hook and changes nothing (empty event trace, query
unchanged), the blocked-read and blocked-write providers are never invoked
(the blocked sets are [] for every provider), and every attribute read and
write on an object carrying ALLOW is the raw access with no blocking. -/
theorem C8_allow_fast_path (tbl : AddFilters) (q : Query) (P : Provider)
    (o : AuthObj) (name : String) (v : Value)
    (hq : q.effective_user = .allow) (ho : o.effective_user = .allow) :
    add_auth_filters tbl q = (.ok q, []) ∧
    get_blocked_read_attributes P { o with checking_authorization := true } = .ok [] ∧
    (get_blocked_write_attributes P o).1 = .ok [] ∧
    getattribute P o name = (.ok (rawGet o name), o) ∧
    setattr_ P o name v = (.ok (), rawSet o name v) := by
  refine ⟨?_, ?_, ?_, ?_, ?_⟩
  · rcases q with ⟨eu, es, cds, cr, sfe⟩
    cases hq
    simp [add_auth_filters]
  · simp [get_blocked_read_attributes, ho]
  · simp [get_blocked_write_attributes, ho]
  · by_cases hf : o.checking_authorization
    · exact getattribute_bypass P o name hf
    · have hf' : o.checking_authorization = false := by simpa using hf
      simp only [getattribute, hf', Bool.false_eq_true, if_false]
      rw [show get_blocked_read_attributes P { o with checking_authorization := true }
            = .ok [] by simp [get_blocked_read_attributes, ho]]
      cases o
      simp_all [rawGet]
  · simp [setattr_, get_blocked_write_attributes, ho]

theorem C8_witness :
    (Query.mk .allow [QEntity.mk 0 0 0] [ColDesc.mk 0 (.modelClass 7)] [] none).effective_user
        = .allow ∧
    (AuthObj.mk "Doc" .allow false [("x", .vNat 1)]).effective_user = .allow ∧
    add_auth_filters (fun cls q _ => { q with criterion := q.criterion ++ [cls] })
        (Query.mk .allow [QEntity.mk 0 0 0] [ColDesc.mk 0 (.modelClass 7)] [] none)
      = (.ok (Query.mk .allow [QEntity.mk 0 0 0] [ColDesc.mk 0 (.modelClass 7)] [] none), []) ∧
    getattribute { blockedR := fun _ _ => .ok ["x"] }
        (AuthObj.mk "Doc" .allow false [("x", .vNat 1)]) "x"
      = (.ok (.vNat 1), AuthObj.mk "Doc" .allow false [("x", .vNat 1)]) ∧
    setattr_ { blockedW := fun _ _ => .ok ["x"] }
        (AuthObj.mk "Doc" .allow false [("x", .vNat 1)]) "x" (.vNat 2)
      = (.ok (), AuthObj.mk "Doc" .allow false [("x", .vNat 2)]) := by
  have h := C8_allow_fast_path (fun cls q _ => { q with criterion := q.criterion ++ [cls] })
    (Query.mk .allow [QEntity.mk 0 0 0] [ColDesc.mk 0 (.modelClass 7)] [] none)
    { blockedR := fun _ _ => .ok ["x"] }
    (AuthObj.mk "Doc" .allow false [("x", .vNat 1)]) "x" (.vNat 2) rfl rfl
  have h2 := C8_allow_fast_path (fun cls q _ => { q with criterion := q.criterion ++ [cls] })
    (Query.mk .allow [QEntity.mk 0 0 0] [ColDesc.mk 0 (.modelClass 7)] [] none)
    { blockedW := fun _ _ => .ok ["x"] }
    (AuthObj.mk "Doc" .allow false [("x", .vNat 1)]) "x" (.vNat 2) rfl rfl
  refine ⟨rfl, rfl, h.1, ?_, ?_⟩
  · rw [h.2.2.2.1]; decide
  · rw [h2.2.2.2.2]; decide

/-- Claim C2: an attribute read (resp. write) on a policy-aware object in
its resting state (re-entrancy flag clear) fails with an AccessDenied
error naming the principal, the field and the entity type exactly when the
field is in the blocked-read (resp. blocked-write) set computed by the
Policy Provider for the carried principal; otherwise the raw access is
performed. -/
theorem C2_attribute_guard_iff (P : Provider) (o : AuthObj) (name : String)
    (v : Value) (bsR bsW : List String)
    (hflag : o.checking_authorization = false)
    (hR : get_blocked_read_attributes P { o with checking_authorization := true } = .ok bsR)
    (hW : (get_blocked_write_attributes P o).1 = .ok bsW) :
    getattribute P o name =
      (if name ∈ bsR then (.error (.accessDenied o.effective_user name o.className), o)
       else (.ok (rawGet o name), o)) ∧
    setattr_ P o name v =
      (if name ∈ bsW then (.error (.accessDenied o.effective_user name o.className), o)
       else (.ok (), rawSet o name v)) := by
  constructor
  · rcases o with ⟨cn, eu, fl, ats⟩
    cases hflag
    simp only at hR
    simp only [getattribute, Bool.false_eq_true, if_false, hR]
  · rcases hgw : get_blocked_write_attributes P o with ⟨r, o1⟩
    have hr : r = .ok bsW := by rw [hgw] at hW; exact hW
    subst hr
    have ho1 : o1 = o := get_blocked_write_ok_state P o bsW o1 hgw
    subst ho1
    simp only [setattr_, hgw]

def PC2 : Provider :=
  { blockedR := fun _ _ => .ok ["secret"], blockedW := fun _ _ => .ok ["owner"] }

def oC2 : AuthObj :=
  { className := "Doc", effective_user := .identity 1,
    attrs := [("secret", .vStr "s"), ("owner", .vStr "bob")] }

theorem C2_witness :
    oC2.checking_authorization = false ∧
    get_blocked_read_attributes PC2 { oC2 with checking_authorization := true }
      = .ok ["secret"] ∧
    (get_blocked_write_attributes PC2 oC2).1 = .ok ["owner"] ∧
    getattribute PC2 oC2 "secret"
      = (.error (.accessDenied (.identity 1) "secret" "Doc"), oC2) ∧
    getattribute PC2 oC2 "owner" = (.ok (.vStr "bob"), oC2) ∧
    setattr_ PC2 oC2 "owner" (.vStr "eve")
      = (.error (.accessDenied (.identity 1) "owner" "Doc"), oC2) ∧
    setattr_ PC2 oC2 "secret" (.vStr "t")
      = (.ok (), rawSet oC2 "secret" (.vStr "t")) := by
  have hs := C2_attribute_guard_iff PC2 oC2 "secret" (.vStr "t") ["secret"] ["owner"]
    rfl (by decide) (by decide)
  have ho := C2_attribute_guard_iff PC2 oC2 "owner" (.vStr "eve") ["secret"] ["owner"]
    rfl (by decide) (by decide)
  refine ⟨rfl, by decide, by decide, ?_, ?_, ?_, ?_⟩
  · rw [hs.1]; decide
  · rw [ho.1]; decide
  · rw [ho.2]; decide
  · rw [hs.2]; decide

/-- Claim C5 (amended): while the per-object re-entrancy flag is set, every
attribute READ bypasses all blocking checks and performs the raw access
(consequently a Policy Provider whose _blocked_read_attributes reads the
own fields of the object, blocked or not, neither raises nor loops).
Attribute WRITES are not bypassed: __setattr__ never consults the flag, so
a write to a write-blocked field raises even during policy evaluation (see
the counterexample). -/
theorem C5_flag_set_reads_bypass (P : Provider) (o : AuthObj) (name : String)
    (h : o.checking_authorization = true) :
    getattribute P o name = (.ok (rawGet o name), o) := by
  simp [getattribute, h]

def oC5 : AuthObj :=
  { className := "Doc", effective_user := .identity 1,
    checking_authorization := true, attrs := [("x", .vNat 0)] }

def PC5 : Provider :=
  { blockedR := fun _ _ => .ok ["x"], blockedW := fun _ _ => .ok ["x"] }

theorem C5_witness :
    oC5.checking_authorization = true ∧
    getattribute PC5 oC5 "x" = (.ok (.vNat 0), oC5) := by
  refine ⟨rfl, ?_⟩
  rw [C5_flag_set_reads_bypass PC5 oC5 "x" rfl]
  decide

theorem C5_counterexample :
    oC5.checking_authorization = true ∧
    setattr_ PC5 oC5 "x" (.vNat 1)
      = (.error (.accessDenied (.identity 1) "x" "Doc"), oC5) := by
  decide

/-- Claim C6 (amended): for an attribute access starting with the
re-entrancy flag clear, the flag is clear again after the access on the
normal exit path and on the blocked (AccessDenied) exit path; on the path
where the blocked-set computation of the Policy Provider itself raises,
however, the flag remains set, because the source clears it with a plain
assignment and no try/finally (see the counterexample). -/
theorem C6_flag_cleared_when_provider_succeeds (P : Provider) (o : AuthObj)
    (name : String) (bs : List String)
    (hflag : o.checking_authorization = false)
    (hok : get_blocked_read_attributes P { o with checking_authorization := true } = .ok bs) :
    (getattribute P o name).2.checking_authorization = false := by
  rcases o with ⟨cn, eu, fl, ats⟩
  cases hflag
  simp only at hok
  simp only [getattribute, Bool.false_eq_true, if_false, hok]
  split <;> rfl

def PC6 : Provider := { blockedR := fun _ _ => .error (.internal "policy failure") }

def oC6 : AuthObj := { className := "Doc", effective_user := .identity 1 }

theorem C6_witness :
    oC6.checking_authorization = false ∧
    get_blocked_read_attributes PC2 { oC6 with checking_authorization := true }
      = .ok ["secret"] ∧
    (getattribute PC2 oC6 "x").2.checking_authorization = false := by
  refine ⟨rfl, by decide, ?_⟩
  exact C6_flag_cleared_when_provider_succeeds PC2 oC6 "x" ["secret"] rfl (by decide)

theorem C6_counterexample :
    oC6.checking_authorization = false ∧
    (getattribute PC6 oC6 "x").2.checking_authorization = true := by
  decide

/-- The class the loop of _lookup_entities resolves for one query entity:
the entity value of the first column_descriptions entry with the same
expr, when that value is a declarative model class. -/
def resolvesToModel (cols : List ColDesc) (e : QEntity) : Option Nat :=
  match (cols.filter (fun c => c.expr == e.expr)).map ColDesc.entity with
  | .modelClass cls :: _ => some cls
  | _ => none

theorem lookup_loop_of_nodup (cols : List ColDesc) (ents found : List QEntity)
    (hn : ents.Nodup) (hdisj : ∀ e ∈ ents, e ∉ found)
    (hr : ∀ e ∈ ents, (resolvesToModel cols e).isSome) :
    lookup_loop cols ents found
      = .ok (ents.map fun e => ((resolvesToModel cols e).getD 0, e.mapper)) := by
  induction ents generalizing found with
  | nil => rfl
  | cons e rest ih =>
    have he : e ∉ found := hdisj e (List.mem_cons_self _ _)
    have hre : (resolvesToModel cols e).isSome := hr e (List.mem_cons_self _ _)
    obtain ⟨hern, hrn⟩ := List.nodup_cons.mp hn
    simp only [lookup_loop, if_neg he]
    rcases hm : (cols.filter (fun c => c.expr == e.expr)).map ColDesc.entity
      with _ | ⟨ce, tl⟩
    · rw [resolvesToModel, hm] at hre
      simp at hre
    · cases ce with
      | nonModel =>
        rw [resolvesToModel, hm] at hre
        simp at hre
      | modelClass cls =>
        have hrec := ih (e :: found) hrn
          (by
            intro x hx
            simp only [List.mem_cons]
            push_neg
            exact ⟨fun hxe => hern (hxe ▸ hx), hdisj x (List.mem_cons_of_mem _ hx)⟩)
          (fun x hx => hr x (List.mem_cons_of_mem _ hx))
        rw [hrec, hm]
        have hcls : resolvesToModel cols e = some cls := by rw [resolvesToModel, hm]
        simp [hcls]

def tblId : AddFilters := fun _ q _ => q

def qC3 : Query :=
  { effective_user := .identity 5,
    entities := [⟨0, 0, 10⟩, ⟨1, 1, 11⟩],
    column_descriptions := [⟨0, .modelClass 7⟩, ⟨1, .modelClass 7⟩] }

/-- Claim C3 counterexample: a query selecting two attributes of one and
the same entity type (two distinct query entities, both resolving to model
class 7, as for query(A.x, A.y)) invokes the add_auth_filters hook of that
type twice in a single injection run, not once: deduplication in
_lookup_entities keys on the query-entity object, not on the entity type. -/
theorem C3_counterexample :
    lookup_entities qC3 = .ok [(7, 10), (7, 11)] ∧
    (add_auth_filters tblId qC3).2 = [.filterCall 7, .filterCall 7] := by
  decide

/-- Claim C3 (amended): per injection run, add_auth_filters is invoked
exactly once per distinct selected-entity ENTRY that resolves to a model
class, in discovery order (deduplication is by entity object, not entity
type): with pairwise-distinct entries all resolving, the event trace is
exactly one filterCall per entry carrying the class resolved for that
entry; an entity type selected through k distinct entries is invoked k
times. -/
theorem C3_one_invocation_per_entity_entry (tbl : AddFilters) (q : Query) (u : Nat)
    (hu : q.effective_user = .identity u)
    (hlen : q.column_descriptions.length = q.entities.length)
    (hn : q.entities.Nodup)
    (hr : ∀ e ∈ q.entities, (resolvesToModel q.column_descriptions e).isSome) :
    (add_auth_filters tbl q).2
      = q.entities.map
          (fun e => Event.filterCall ((resolvesToModel q.column_descriptions e).getD 0)) := by
  have hl : lookup_entities q
      = .ok (q.entities.map
          fun e => ((resolvesToModel q.column_descriptions e).getD 0, e.mapper)) := by
    rw [lookup_entities, if_neg (by simp [hlen])]
    exact lookup_loop_of_nodup _ _ _ hn (by simp) hr
  simp [add_auth_filters, hu, hl, run_filters_trace, List.map_map, Function.comp]

theorem C3_witness :
    qC3.effective_user = .identity 5 ∧
    qC3.entities.Nodup ∧
    (add_auth_filters tblId qC3).2
      = qC3.entities.map
          (fun e => Event.filterCall ((resolvesToModel qC3.column_descriptions e).getD 0)) := by
  refine ⟨rfl, by decide, ?_⟩
  exact C3_one_invocation_per_entity_entry tblId qC3 5 rfl (by decide) (by decide) (by decide)

/-- The shape of an add_auth_filters hook that restricts rows: it appends
one predicate (depending on the class and the user) to the query
criterion, the way query.filter does. -/
def appendFilterTbl (pred : Nat → EffUser → Nat) : AddFilters :=
  fun cls q u => { q with criterion := q.criterion ++ [pred cls u] }

theorem run_filters_append (pred : Nat → EffUser → Nat) (q : Query)
    (ents : List (Nat × Nat)) :
    ((run_filters (appendFilterTbl pred) q ents).1).criterion
        = q.criterion ++ ents.map (fun cm => pred cm.1 q.effective_user) ∧
    ((run_filters (appendFilterTbl pred) q ents).1).effective_user = q.effective_user ∧
    ((run_filters (appendFilterTbl pred) q ents).1).entities = q.entities ∧
    ((run_filters (appendFilterTbl pred) q ents).1).column_descriptions
        = q.column_descriptions := by
  induction ents generalizing q with
  | nil => simp [run_filters]
  | cons cm rest ih =>
    rcases cm with ⟨cls, m⟩
    have := ih { q with select_from_entity := some m,
                        criterion := q.criterion ++ [pred cls q.effective_user] }
    simp only [run_filters, appendFilterTbl]
    simp_all

theorem lookup_entities_congr (q q' : Query)
    (hc : q'.column_descriptions = q.column_descriptions)
    (he : q'.entities = q.entities) :
    lookup_entities q' = lookup_entities q := by
  simp only [lookup_entities, hc, he]

theorem add_auth_filters_identity (tbl : AddFilters) (q : Query) (u : Nat)
    (ents : List (Nat × Nat))
    (hu : q.effective_user = .identity u)
    (hl : lookup_entities q = .ok ents) :
    add_auth_filters tbl q
      = (.ok { (run_filters tbl q ents).1 with
                 select_from_entity := q.select_from_entity },
         (run_filters tbl q ents).2) := by
  have hd : ¬ q.effective_user = .deny := by rw [hu]; intro h; cases h
  have ha : ¬ q.effective_user = .allow := by rw [hu]; intro h; cases h
  simp only [add_auth_filters, if_neg hd, if_neg ha, hl]

def qC4 : Query :=
  { effective_user := .identity 5,
    entities := [⟨0, 0, 10⟩],
    column_descriptions := [⟨0, .modelClass 7⟩] }

/-- Claim C4 counterexample: triggering filter injection twice on the same
query duplicates the auth predicates: with a hook that appends its class
as predicate, one run yields criterion [7], and a second run on the
already-filtered result yields [7, 7] - the second run adds the predicate
again instead of adding nothing. -/
theorem C4_counterexample :
    ((add_auth_filters (appendFilterTbl (fun cls _ => cls)) qC4).1.map
        Query.criterion) = .ok [7] ∧
    (((add_auth_filters (appendFilterTbl (fun cls _ => cls)) qC4).1.bind
        (fun f => (add_auth_filters (appendFilterTbl (fun cls _ => cls)) f).1)).map
        Query.criterion) = .ok [7, 7] := by
  decide

/-- Claim C4 (amended): filter injection is not idempotent.  A single
trigger of _add_auth_filters applies each looked-up entity predicate
exactly once, but a second trigger on the already-filtered query appends
all auth predicates a second time (the source comment itself notes filters
can be added twice); the single-application guarantee per execution cycle
comes from execute, update and delete each triggering injection exactly
once on the unfiltered query, not from idempotence of the injection. -/
theorem C4_second_run_duplicates_predicates (pred : Nat → EffUser → Nat) (q : Query)
    (u : Nat) (ents : List (Nat × Nat))
    (hu : q.effective_user = .identity u)
    (hl : lookup_entities q = .ok ents) :
    ∃ q1 q2,
      (add_auth_filters (appendFilterTbl pred) q).1 = .ok q1 ∧
      q1.criterion = q.criterion ++ ents.map (fun cm => pred cm.1 (.identity u)) ∧
      (add_auth_filters (appendFilterTbl pred) q1).1 = .ok q2 ∧
      q2.criterion = (q.criterion ++ ents.map (fun cm => pred cm.1 (.identity u)))
                       ++ ents.map (fun cm => pred cm.1 (.identity u)) := by
  rcases hrf : run_filters (appendFilterTbl pred) q ents with ⟨fq, tr⟩
  have hc := run_filters_append pred q ents
  rw [hrf] at hc
  dsimp only at hc
  have hq1 : (add_auth_filters (appendFilterTbl pred) q).1
      = .ok { fq with select_from_entity := q.select_from_entity } := by
    rw [add_auth_filters_identity (appendFilterTbl pred) q u ents hu hl, hrf]
  have hq1u : ({ fq with select_from_entity := q.select_from_entity } : Query).effective_user
      = .identity u := hc.2.1.trans hu
  have hq1c : ({ fq with select_from_entity := q.select_from_entity } : Query).criterion
      = q.criterion ++ ents.map (fun cm => pred cm.1 (.identity u)) :=
    hc.1.trans (by rw [hu])
  have hl1 : lookup_entities { fq with select_from_entity := q.select_from_entity }
      = .ok ents := by
    rw [lookup_entities_congr q { fq with select_from_entity := q.select_from_entity }
      hc.2.2.2 hc.2.2.1]
    exact hl
  rcases hrf2 : run_filters (appendFilterTbl pred)
      { fq with select_from_entity := q.select_from_entity } ents with ⟨fq2, tr2⟩
  have hc2 := run_filters_append pred
    { fq with select_from_entity := q.select_from_entity } ents
  rw [hrf2] at hc2
  dsimp only at hc2
  have hq2 : (add_auth_filters (appendFilterTbl pred)
        { fq with select_from_entity := q.select_from_entity }).1
      = .ok { fq2 with select_from_entity := q.select_from_entity } := by
    rw [add_auth_filters_identity (appendFilterTbl pred)
      { fq with select_from_entity := q.select_from_entity } u ents hq1u hl1, hrf2]
  refine ⟨{ fq with select_from_entity := q.select_from_entity },
    { fq2 with select_from_entity := q.select_from_entity },
    hq1, hq1c, hq2, ?_⟩
  calc ({ fq2 with select_from_entity := q.select_from_entity } : Query).criterion
      = fq2.criterion := rfl
    _ = ({ fq with select_from_entity := q.select_from_entity } : Query).criterion
          ++ ents.map (fun cm => pred cm.1
              ({ fq with select_from_entity := q.select_from_entity } : Query).effective_user) :=
        hc2.1
    _ = (q.criterion ++ ents.map (fun cm => pred cm.1 (.identity u)))
          ++ ents.map (fun cm => pred cm.1 (.identity u)) := by rw [hq1c, hq1u]

theorem C4_witness :
    qC4.effective_user = .identity 5 ∧
    lookup_entities qC4 = .ok [(7, 10)] ∧
    (∃ q1 q2,
      (add_auth_filters (appendFilterTbl (fun cls _ => cls)) qC4).1 = .ok q1 ∧
      q1.criterion = qC4.criterion ++ [(7, 10)].map (fun cm : Nat × Nat => cm.1) ∧
      (add_auth_filters (appendFilterTbl (fun cls _ => cls)) q1).1 = .ok q2 ∧
      q2.criterion = (qC4.criterion ++ [(7, 10)].map (fun cm : Nat × Nat => cm.1))
                       ++ [(7, 10)].map (fun cm : Nat × Nat => cm.1)) := by
  refine ⟨rfl, by decide, ?_⟩
  exact C4_second_run_duplicates_predicates (fun cls _ => cls) qC4 5 [(7, 10)]
    rfl (by decide)

/-- Claim C7 (amended): during result materialization every produced row
that is a policy-aware object is stamped with the query principal,
provided the stamping write itself passes the attribute guard of the row
under its pre-stamp principal (always the case when that principal is
ALLOW - in particular for freshly materialized instances, whose class
default is ALLOW - or when the provider does not write-block the internal
_effective_user name); rows that are not such objects are skipped silently
and never raise; each stamped object then carries the query principal as
its effective user for later attribute-guard checks.  A provider that
write-blocks _effective_user under the pre-stamp principal of a row makes
stamping raise AccessDenied instead (see the counterexample). -/
theorem C7_stamping (provOf : String → Provider) (u : EffUser) (rows : List Row)
    (h : ∀ o, Row.obj o ∈ rows →
      ∃ bs, get_blocked_write_attributes (provOf o.className) o = (.ok bs, o) ∧
            "_effective_user" ∉ bs) :
    execute_and_instances provOf u rows
      = .ok (rows.map (fun r => match r with
          | .obj o => .obj { o with effective_user := u }
          | .scalar n => .scalar n)) := by
  induction rows with
  | nil => rfl
  | cons r rest ih =>
    have hrest := ih (fun o ho => h o (List.mem_cons_of_mem _ ho))
    cases r with
    | scalar n => simp [execute_and_instances, hrest]
    | obj o =>
      obtain ⟨bs, hgw, hnb⟩ := h o (List.mem_cons_self _ _)
      have hset : setattr_ (provOf o.className) o "_effective_user" (.vUser u)
          = (.ok (), { o with effective_user := u }) := by
        simp only [setattr_, hgw]
        simp [hnb, rawSet]
      simp [execute_and_instances, hset, hrest]

def provAllowAll : String → Provider := fun _ => {}

def oC7 : AuthObj :=
  { className := "Doc", effective_user := .allow, attrs := [("x", .vNat 1)] }

theorem C7_witness :
    execute_and_instances provAllowAll (.identity 2) [.obj oC7, .scalar 3]
      = .ok [.obj { oC7 with effective_user := .identity 2 }, .scalar 3] := by
  have h := C7_stamping provAllowAll (.identity 2) [.obj oC7, .scalar 3] ?hp
  · exact h
  case hp =>
    intro o ho
    simp only [List.mem_cons, List.not_mem_nil, or_false] at ho
    rcases ho with ho | ho
    · obtain rfl : o = oC7 := by injection ho
      exact ⟨[], by decide, by decide⟩
    · exact Row.noConfusion ho

def provC7 : String → Provider := fun _ =>
  { blockedW := fun us _ => if us = .identity 1 then .ok ["_effective_user"] else .ok [] }

def oC7bad : AuthObj := { className := "Doc", effective_user := .identity 1 }

/-- Claim C7 counterexample: a policy-aware row whose pre-stamp principal
is Identity 1 (for example an identity-map instance from an earlier query),
under a provider that write-blocks _effective_user for that principal,
makes result stamping raise AccessDenied through __setattr__ instead of
yielding the row stamped with the query principal: materialization of a
query for Identity 2 fails instead of setting the carried principal. -/
theorem C7_counterexample :
    execute_and_instances provC7 (.identity 2) [.obj oC7bad, .scalar 3]
      = .error (.accessDenied (.identity 1) "_effective_user" "Doc") := by
  decide

/-- Claim C10: for an identity (non-Deny) principal, query-level
update(values) injects the row-level auth filters and hands the filtered
query together with the caller values verbatim to the engine, performing
no blocked-write-attribute check: the update succeeds with the values
intact even when a value targets a field that is write-blocked for some
provider and object, and no AccessDenied is raised. -/
theorem C10_update_bypasses_write_blocking (tbl : AddFilters) (q : Query)
    (values : List (String × Value)) (u : Nat) (ents : List (Nat × Nat))
    (P : Provider) (o : AuthObj) (f : String) (bs : List String)
    (hu : q.effective_user = .identity u)
    (hl : lookup_entities q = .ok ents)
    (hfv : f ∈ values.map Prod.fst)
    (hfb : (get_blocked_write_attributes P o).1 = .ok bs)
    (hfbs : f ∈ bs) :
    updateQ tbl q values
      = (.ok ({ (run_filters tbl q ents).1 with
                  select_from_entity := q.select_from_entity },
              values),
         (ents.map fun cm => Event.filterCall cm.1) ++ [Event.engineCall]) := by
  rcases hrf : run_filters tbl q ents with ⟨fq, tr⟩
  have htr : tr = ents.map fun cm => Event.filterCall cm.1 := by
    have h0 := run_filters_trace tbl q ents
    rw [hrf] at h0
    exact h0
  simp [updateQ, add_auth_filters, hu, hl, hrf, htr]

theorem C10_witness :
    qC4.effective_user = .identity 5 ∧
    (get_blocked_write_attributes PC2 oC2).1 = .ok ["owner"] ∧
    "owner" ∈ (["owner"] : List String) ∧
    updateQ tblId qC4 [("owner", .vStr "eve")]
      = (.ok ({ (run_filters tblId qC4 [(7, 10)]).1 with
                  select_from_entity := qC4.select_from_entity },
              [("owner", .vStr "eve")]),
         ([(7, 10)].map fun cm : Nat × Nat => Event.filterCall cm.1)
           ++ [Event.engineCall]) := by
  refine ⟨rfl, by decide, by decide, ?_⟩
  exact C10_update_bypasses_write_blocking tblId qC4 [("owner", .vStr "eve")] 5
    [(7, 10)] PC2 oC2 "owner" ["owner"] rfl (by decide) (by decide) (by decide)
    (by decide)

end SqlAuth
